import Mathlib

/-!
Verification of the `deep-vars` repository: a shallow embedding of
`src/deep_vars/deep_vars.py` and `src/deep_vars/handlers/*.py`.

The embedding models:
* Python values relevant to the library (`PyVal`) and their runtime types;
* the classifier `DeepVars._get_special_type` (`getSpecialType`);
* the handler registry and its dispatch `DeepVars.get_handler`;
* the six concrete handlers plus the base handler and the exception-wrapping
  `DeepVarsHandler.process` contract (`processWrap`, `processObj`);
* the depth-bounded traversal engine `DeepVars.deep_vars` (`deepVars`);
* the bookmark store and its operations (`bookmarkHandlers`, `resetHandlers`,
  `clearBookmarks`, `setHandlers`, `setSpecialHandlers`, `setAllHandlers`).

Modelling conventions, fixed once here:
* Python exceptions are modelled with `Except PyErr`; an operation that raises
  returns `.error e` and leaves no mutated state behind (matching the source,
  which raises before mutating in every such spot).
* Python `dict`s are modelled as insertion-ordered association lists; keys of
  `dict`-valued `PyVal`s and of the bookmark store are strings, which covers
  every use in the repository and its tests.
* `dir(obj)` is modelled as the stored attribute-name list of a structured
  object (`PyVal.obj`), in stored order, and as the empty list for values the
  library never routes to the attribute-enumerating handler.
* `uuid`-generated bookmark names are modelled by an explicit `genName`
  argument; the source guarantees the generated name is fresh.
-/

/-- Runtime type of a modelled Python value.  `float` appears only as a
registry key (the default registry maps it to the show handler); no modelled
value has that type. -/
inductive PyType where
  | int | float | str | set | list | tuple | dict
  | objType | funcType | classType | errType
deriving DecidableEq, Repr

/-- Modelled Python values.  `obj` is a generic object carrying its attribute
mapping, `func` a callable with a name and an optionally-introspectable
signature string, `classObj` a class (callable and an instance of `type`),
and `errorObj` the `_DeepVarsErrorObject` sentinel. -/
inductive PyVal where
  | int : Int → PyVal
  | str : String → PyVal
  | list : List PyVal → PyVal
  | tuple : List PyVal → PyVal
  | set : List PyVal → PyVal
  | dict : List (String × PyVal) → PyVal
  | obj : List (String × PyVal) → PyVal
  | func : String → Option String → PyVal
  | classObj : String → PyVal
  | errorObj : PyVal

/-- Modelled Python exceptions raised by the library and by the builtins it
relies on. -/
inductive PyErr where
  | invalidHandlerError : String → PyErr
  | notImplementedError : String → PyErr
  | typeError : PyErr
  | attributeError : PyErr
  | keyError : PyErr
  | valueError : String → PyErr
  | stopIteration : PyErr
deriving DecidableEq, Repr

/-- `type(obj)` on a modelled value. -/
def typeOf : PyVal → PyType
  | .int _ => .int
  | .str _ => .str
  | .list _ => .list
  | .tuple _ => .tuple
  | .set _ => .set
  | .dict _ => .dict
  | .obj _ => .objType
  | .func _ _ => .funcType
  | .classObj _ => .classType
  | .errorObj => .errType

/-- `callable(obj)`: functions and classes are callable. -/
def pyCallable : PyVal → Bool
  | .func _ _ => true
  | .classObj _ => true
  | _ => false

/-- `isinstance(obj, type)`: only classes are types. -/
def pyIsType : PyVal → Bool
  | .classObj _ => true
  | _ => false

/-- Python `s.startswith(pre)`, over the character list of the string. -/
def strStartsWith (s pre : String) : Bool :=
  decide (s.toList.take pre.length = pre.toList)

/-- Python `s.endswith(suf)`, over the character list of the string. -/
def strEndsWith (s suf : String) : Bool :=
  decide (s.toList.drop (s.length - suf.length) = suf.toList)

/-- `isinstance(name, str) and len(name) > 4 and name.startswith("__") and
name.endswith("__")` from `DeepVars._get_special_type`. -/
def isMagicName : Option String → Bool
  | some s => decide (4 < s.length) && strStartsWith s "__" && strEndsWith s "__"
  | none => false

/-- `isinstance(name, str) and len(name) > 1 and name.startswith("_")` from
`DeepVars._get_special_type`. -/
def isPrivateName : Option String → Bool
  | some s => decide (1 < s.length) && strStartsWith s "_"
  | none => false

/-- A special-type detector, as appended to `DeepVars.special_type_detectors`:
a function from an optional field name and an object to an optional
classification tag. -/
def Detector : Type := Option String → PyVal → Option String

/-- `DeepVars._get_special_type`: consult the detectors in registration order
and return the first result that is not `None`; if all are `None` (the
generator raises `StopIteration`), fall back to the built-in rules
"magic" / "private" / "callable" / no classification. -/
def getSpecialType (detectors : List Detector) (name : Option String)
    (obj : PyVal) : Option String :=
  match detectors.findSome? (fun d => d name obj) with
  | some t => some t
  | none =>
    if isMagicName name then some "magic"
    else if isPrivateName name then some "private"
    else if pyCallable obj && !pyIsType obj then some "callable"
    else none

/-- A handler class.  The repository defines the base class plus six concrete
subclasses (`show.py`, `hide.py`, `callable.py`, `loop.py`, `loop_dict.py`,
`process.py`). -/
inductive Handler where
  | base | show | hide | callable | loop | loopDict | process
deriving DecidableEq, Repr

/-- A key of the handler registry `DeepVars._handlers`: a special-type tag
(string) or a concrete runtime type. -/
inductive HKey where
  | tag : String → HKey
  | ty : PyType → HKey
deriving DecidableEq, Repr

/-- The handler registry: a Python `dict` from key to handler class, modelled
as an insertion-ordered association list. -/
abbrev Registry := List (HKey × Handler)

/-- `d.get(k)` on an insertion-ordered association list with unique keys. -/
def dictGet {α β : Type} [DecidableEq α] : List (α × β) → α → Option β
  | [], _ => none
  | (k', v) :: rest, k => if k' = k then some v else dictGet rest k

/-- `d[k] = v`: replace the value in place if the key is present (keeping its
position), otherwise append the new entry at the end. -/
def dictSet {α β : Type} [DecidableEq α] (m : List (α × β)) (k : α) (v : β) :
    List (α × β) :=
  match m with
  | [] => [(k, v)]
  | (k', v') :: rest =>
    if k' = k then (k, v) :: rest else (k', v') :: dictSet rest k v

/-- `d.pop(k, None)`: drop every entry with the given key (a Python dict holds
at most one). -/
def dictRemove {α β : Type} [DecidableEq α] : List (α × β) → α → List (α × β)
  | [], _ => []
  | (k', v) :: rest, k =>
    if k' = k then dictRemove rest k else (k', v) :: dictRemove rest k

/-- The built-in registry `DeepVars._handlers`, in source order. -/
def defaultRegistry : Registry :=
  [(.tag "magic", .hide), (.tag "private", .hide), (.tag "callable", .callable),
   (.ty .int, .show), (.ty .float, .show), (.ty .str, .show),
   (.ty .set, .loop), (.ty .list, .loop), (.ty .tuple, .loop),
   (.ty .dict, .loopDict)]

/-- `DeepVars.default_handler` is the attribute-enumerating process handler. -/
def defaultHandler : Handler := .process

/-- The dispatch configuration the traversal engine reads: the live registry,
the special-type detector list, and `DeepVarsHandlerHide.fallback_handler`
(`None` by default). -/
structure Config where
  registry : Registry
  detectors : List Detector
  hideFallback : Option Handler := none

/-- The default configuration at module initialisation. -/
def defaultConfig : Config := { registry := defaultRegistry, detectors := [] }

/-- `DeepVars.get_handler`: look the classification tag up in the registry (if
the classifier produced one), then fall back to the object's concrete type,
then to the default handler. -/
def getHandler (cfg : Config) (name : Option String) (obj : PyVal) : Handler :=
  let special := getSpecialType cfg.detectors name obj
  let fromSpecial : Option Handler :=
    match special with
    | some t => dictGet cfg.registry (.tag t)
    | none => none
  match fromSpecial with
  | some h => h
  | none => (dictGet cfg.registry (.ty (typeOf obj))).getD defaultHandler

/-- The `deep_vars_args` dictionary handed to `DeepVarsHandler.process`:
`deep_vars` populates `max_depth` and `_top_level` only, so the `_obj_name`
entry (read by the hide handler via `.get`) is absent, i.e. `none`. -/
structure DVArgs where
  maxDepth : Int
  topLevel : Bool
  objName : Option String := none

/-- `DeepVarsHandler.use_obj`: `True` for every handler except the hide
handler, which overrides it to `False`. -/
def handlerUseObj (h : Handler) (_obj : PyVal) (_args : DVArgs) : Bool :=
  match h with
  | .hide => false
  | _ => true

/-- `DeepVars.use_obj`: dispatch to the classified handler's `use_obj`. -/
def useObj (cfg : Config) (name : Option String) (obj : PyVal)
    (args : DVArgs) : Bool :=
  handlerUseObj (getHandler cfg name obj) obj args

/-- `DeepVarsHandlerContainer.allow_filtering`: `False` by default; only
`DeepVarsHandlerProcess` overrides it to `True`. -/
def allowFiltering : Handler → Bool
  | .process => true
  | _ => false

/-- `DeepVarsHandlerContainer.use_subobj`: accept the sub-object whenever
filtering is disabled for the handler, otherwise consult `DeepVars.use_obj`. -/
def useSubobj (cfg : Config) (h : Handler) (name : Option String)
    (value : PyVal) (args : DVArgs) : Bool :=
  !allowFiltering h || useObj cfg name value args

/-- `DeepVarsHandler.process`, the two-tier error-swallowing wrapper around an
arbitrary `process_obj`: re-raise the "invalid handler" signal, swallow every
other exception by returning the object unchanged. -/
def processWrap (pObj : PyVal → DVArgs → Except PyErr PyVal) (obj : PyVal)
    (args : DVArgs) : Except PyErr PyVal :=
  match pObj obj args with
  | .error (.invalidHandlerError m) => .error (.invalidHandlerError m)
  | .error _ => .ok obj
  | .ok v => .ok v

/-- The `try ... except DeepVarsInvalidHandlerError` clause of
`DeepVars.deep_vars`: at the top level the signal is converted into a plain
`NotImplementedError` carrying the same message; at nested levels it is
re-raised unchanged. -/
def convertTop (topLevel : Bool) (r : Except PyErr PyVal) :
    Except PyErr PyVal :=
  match r with
  | .error (.invalidHandlerError m) =>
    if topLevel then .error (.notImplementedError m)
    else .error (.invalidHandlerError m)
  | _ => r

/-- `DeepVarsHandlerHide.process_obj`'s delegate resolution: use the configured
fallback handler if any, otherwise re-dispatch on the (name, object) pair; if
the resolved handler is again the hide handler, re-dispatch ignoring the name,
and finally fall through to the show handler. -/
def hideDelegate (cfg : Config) (objName : Option String) (obj : PyVal) :
    Handler :=
  let h : Handler :=
    match cfg.hideFallback with
    | none =>
      let h1 := getHandler cfg objName obj
      if h1 = .hide then getHandler cfg none obj else h1
    | some f => f
  if h = .hide then .show else h

theorem ite_show_ne_hide (h : Handler) :
    (if h = .hide then Handler.show else h) ≠ .hide := by
  split <;> simp_all

theorem hideDelegate_ne_hide (cfg : Config) (objName : Option String)
    (obj : PyVal) : hideDelegate cfg objName obj ≠ .hide := by
  unfold hideDelegate
  split <;> exact ite_show_ne_hide _

/-- `dir(obj)` as modelled: the stored attribute names of a structured object,
in stored order; empty for every other value (the library only routes
structured objects to the attribute enumerator under test-relevant
configurations). -/
def pyDir : PyVal → List String
  | .obj attrs => attrs.map Prod.fst
  | _ => []

/-- `DeepVarsHandlerProcess.get_sub_obj`: `getattr(obj, name)`, substituting
the error sentinel when attribute resolution fails. -/
def getSubObj (obj : PyVal) (name : String) : PyVal :=
  match obj with
  | .obj attrs =>
    match dictGet attrs name with
    | some v => v
    | none => .errorObj
  | _ => .errorObj

/-- Python iteration (`for value in obj`) for the values the loop handler can
receive: lists, tuples and sets yield elements, strings yield one-character
strings, dicts yield their keys; everything else raises `TypeError`. -/
def pyIterate : PyVal → Except PyErr (List PyVal)
  | .list xs => .ok xs
  | .tuple xs => .ok xs
  | .set xs => .ok xs
  | .str s => .ok (s.toList.map (fun c => .str c.toString))
  | .dict ps => .ok (ps.map (fun p => .str p.1))
  | _ => .error .typeError

/-- Python hashability of a processed value: lists, sets and dicts cannot be
members of a set. -/
def pyUnhashable : PyVal → Bool
  | .list _ => true
  | .set _ => true
  | .dict _ => true
  | _ => false

/-- `DeepVarsHandlerLoop.process_obj`'s element traversal for the non-set
branch of the comprehension: recurse into each element (with no field name)
when `use_subobj` accepts it, left to right, propagating any re-raised
exception. -/
def loopElems (dv : PyVal → Option String → Except PyErr PyVal) (cfg : Config)
    (elems : List PyVal) (args : DVArgs) : Except PyErr (List PyVal) :=
  match elems with
  | [] => .ok []
  | v :: rest =>
    if useSubobj cfg .loop none v args then
      match dv v none with
      | .error e => .error e
      | .ok v' =>
        match loopElems dv cfg rest args with
        | .error e => .error e
        | .ok vs => .ok (v' :: vs)
    else loopElems dv cfg rest args

/-- `DeepVarsHandlerLoop.process_obj`'s set comprehension: like `loopElems`,
but adding an unhashable processed element raises `TypeError`, reported here
as `.ok none` so the handler can fall back to the unprocessed set. -/
def buildSetElems (dv : PyVal → Option String → Except PyErr PyVal)
    (cfg : Config) (elems : List PyVal) (args : DVArgs) :
    Except PyErr (Option (List PyVal)) :=
  match elems with
  | [] => .ok (some [])
  | v :: rest =>
    if useSubobj cfg .loop none v args then
      match dv v none with
      | .error e => .error e
      | .ok v' =>
        if pyUnhashable v' then .ok none
        else
          match buildSetElems dv cfg rest args with
          | .error e => .error e
          | .ok none => .ok none
          | .ok (some vs) => .ok (some (v' :: vs))
    else buildSetElems dv cfg rest args

/-- `DeepVarsHandlerLoopDict.process_obj`'s comprehension over
`obj.items()`: recurse into each value (with the key as the filter name but no
`_obj_name` for the recursive call), keeping source order. -/
def dictPairs (dv : PyVal → Option String → Except PyErr PyVal) (cfg : Config)
    (pairs : List (String × PyVal)) (args : DVArgs) :
    Except PyErr (List (String × PyVal)) :=
  match pairs with
  | [] => .ok []
  | (name, v) :: rest =>
    if useSubobj cfg .loopDict (some name) v args then
      match dv v none with
      | .error e => .error e
      | .ok v' =>
        match dictPairs dv cfg rest args with
        | .error e => .error e
        | .ok ps => .ok ((name, v') :: ps)
    else dictPairs dv cfg rest args

/-- `DeepVarsHandlerProcess.process_obj`'s comprehension over `dir(obj)`:
resolve each name, filter by `use_subobj`, and recurse with `_obj_name` set to
the attribute name. -/
def processAttrs (dv : PyVal → Option String → Except PyErr PyVal)
    (cfg : Config) (obj : PyVal) (names : List String) (args : DVArgs) :
    Except PyErr (List (String × PyVal)) :=
  match names with
  | [] => .ok []
  | n :: rest =>
    let value := getSubObj obj n
    if useSubobj cfg .process (some n) value args then
      match dv value (some n) with
      | .error e => .error e
      | .ok v' =>
        match processAttrs dv cfg obj rest args with
        | .error e => .error e
        | .ok ps => .ok ((n, v') :: ps)
    else processAttrs dv cfg obj rest args

/-- `process_obj` of every handler other than the hide handler (whose
delegation is resolved by `hideDelegate` before this function is reached;
`hideDelegate_ne_hide` discharges the impossible case).  `dv value name`
stands for the recursive call
`self.deep_vars.deep_vars(value, _obj_name=name, **deep_vars_args)`. -/
def processObjCore (dv : PyVal → Option String → Except PyErr PyVal)
    (cfg : Config) (h : Handler) (hne : h ≠ .hide) (obj : PyVal)
    (args : DVArgs) : Except PyErr PyVal :=
  match h, hne with
  | .hide, hne => absurd rfl hne
  | .base, _ =>
    .error (.invalidHandlerError "do not use DeepVarsHandler directly")
  | .show, _ => .ok obj
  | .callable, _ =>
    if pyCallable obj then
      match obj with
      | .func fname (some sig) => .ok (.str (fname ++ sig))
      | _ => .ok (.str "<built-in function>")
    else .ok .errorObj
  | .loop, _ =>
    match obj with
    | .set elems =>
      match buildSetElems dv cfg elems args with
      | .error e => .error e
      | .ok none => .ok obj
      | .ok (some vs) => .ok (.set vs)
    | _ =>
      match pyIterate obj with
      | .error e => .error e
      | .ok elems =>
        match loopElems dv cfg elems args with
        | .error e => .error e
        | .ok vs => .ok (if typeOf obj = .tuple then .tuple vs else .list vs)
  | .loopDict, _ =>
    match obj with
    | .dict ps =>
      match dictPairs dv cfg ps args with
      | .error e => .error e
      | .ok ps' => .ok (.dict ps')
    | _ => .error .attributeError
  | .process, _ =>
    match processAttrs dv cfg obj (pyDir obj) args with
    | .error e => .error e
    | .ok ps => .ok (.dict ps)

/-- `process_obj` of any handler: the hide handler resolves its delegate and
invokes the delegate's full `process` (wrapper included); every other handler
runs its own body. -/
def processObj (dv : PyVal → Option String → Except PyErr PyVal)
    (cfg : Config) (h : Handler) (obj : PyVal) (args : DVArgs) :
    Except PyErr PyVal :=
  if hh : h = .hide then
    let d := hideDelegate cfg args.objName obj
    processWrap
      (processObjCore dv cfg d (hideDelegate_ne_hide cfg args.objName obj))
      obj args
  else processObjCore dv cfg h hh obj args

/-- `DeepVars.deep_vars`, with an explicit recursion fuel.  The fuel is set to
`maxDepth.toNat` by `deepVars` below and strictly dominates the recursion: the
engine only recurses with `max_depth - 1` when `max_depth > 0`, so the
fuel-exhausted branch is never taken. -/
def dvFuel (cfg : Config) (fuel : Nat) (obj : PyVal) (maxDepth : Int)
    (objName : Option String) (topLevel : Bool) : Except PyErr PyVal :=
  if maxDepth ≤ 0 then .ok obj
  else
    match fuel with
    | 0 => .ok obj
    | fuel' + 1 =>
      let args : DVArgs := { maxDepth := maxDepth - 1, topLevel := false }
      let dv : PyVal → Option String → Except PyErr PyVal :=
        fun v nm => dvFuel cfg fuel' v (maxDepth - 1) nm false
      convertTop topLevel
        (processWrap (processObj dv cfg (getHandler cfg objName obj)) obj args)

/-- `DeepVars.deep_vars(obj, max_depth, _obj_name, _top_level)`: if
`max_depth <= 0`, return the object unchanged; otherwise dispatch to the
classified handler's `process` with `max_depth - 1`, converting the invalid
handler signal at the top level. -/
def deepVars (cfg : Config) (obj : PyVal) (maxDepth : Int)
    (objName : Option String := none) (topLevel : Bool := true) :
    Except PyErr PyVal :=
  dvFuel cfg maxDepth.toNat obj maxDepth objName topLevel

/-- The mutable class-level state relevant to bookmarks: the live handler
registry `DeepVars._handlers` and the bookmark store `DeepVars._bookmarks`
(an insertion-ordered dict from name to registry snapshot). -/
structure DVState where
  handlers : Registry
  bookmarks : List (String × Registry)
deriving DecidableEq, Repr

/-- `DeepVars.bookmark_handlers(name)`: with an explicit name, silently drop
any existing bookmark of that name and append a fresh snapshot of the live
registry; with no name, store the snapshot under a generated name (`genName`
models the `uuid4` loop, which guarantees a name not already in the store).
Returns the updated state and the name used. -/
def bookmarkHandlers (st : DVState) (name : Option String) (genName : String) :
    DVState × String :=
  match name with
  | some n =>
    ({ st with bookmarks := dictRemove st.bookmarks n ++ [(n, st.handlers)] }, n)
  | none =>
    ({ st with bookmarks := dictSet st.bookmarks genName st.handlers }, genName)

/-- `DeepVars.reset_handlers(name, delete)`: compute the effective deletion
flag (forced off when the store holds at most one bookmark, defaulting to
"delete exactly when the name was omitted"), pick the bookmark (the
most-recently-added one when the name is omitted, matching `dict.popitem` /
`next(reversed(...))`), optionally delete it, and replace the live registry
with the snapshot.  Raises `KeyError` for an unknown explicit name. -/
def resetHandlers (st : DVState) (name : Option String)
    (delete : Option Bool) : Except PyErr DVState :=
  let del : Bool :=
    if st.bookmarks.length ≤ 1 then false
    else
      match delete with
      | none => name.isNone
      | some b => b
  match name with
  | none =>
    if del then
      match st.bookmarks.getLast? with
      | none => .error .keyError
      | some (_, bm) => .ok { handlers := bm, bookmarks := st.bookmarks.dropLast }
    else
      match st.bookmarks.getLast? with
      | none => .error .stopIteration
      | some (_, bm) => .ok { handlers := bm, bookmarks := st.bookmarks }
  | some n =>
    if del then
      match dictGet st.bookmarks n with
      | none => .error .keyError
      | some bm => .ok { handlers := bm, bookmarks := dictRemove st.bookmarks n }
    else
      match dictGet st.bookmarks n with
      | none => .error .keyError
      | some bm => .ok { handlers := bm, bookmarks := st.bookmarks }

/-- `DeepVars.clear_bookmarks()`: keep only the first (oldest) bookmark,
leaving the live registry untouched.  `next(iter(...))` raises
`StopIteration` on an empty store. -/
def clearBookmarks (st : DVState) : Except PyErr DVState :=
  match st.bookmarks with
  | [] => .error .stopIteration
  | (n, bm) :: _ => .ok { handlers := st.handlers, bookmarks := [(n, bm)] }

/-- `DeepVars.set_handlers(value, *handlers)`: require at least one key, then
assign the handler to every key. -/
def setHandlers (st : DVState) (value : Handler) (keys : List HKey) :
    Except PyErr DVState :=
  if keys = [] then
    .error (.valueError "at least one handler needs to be provided")
  else
    .ok { st with
          handlers := keys.foldl (fun m k => dictSet m k value) st.handlers }

/-- The string-tagged keys of a registry, in registry order. -/
def stringKeys (r : Registry) : List String :=
  r.filterMap fun p =>
    match p.1 with
    | .tag s => some s
    | .ty _ => none

/-- `DeepVars.set_special_handlers(value, skip=...)`: forward to
`set_handlers` with every currently-registered string key not in `skip`. -/
def setSpecialHandlers (st : DVState) (value : Handler)
    (skip : Option (List String)) : Except PyErr DVState :=
  let sk := skip.getD []
  setHandlers st value
    (((stringKeys st.handlers).filter (fun s => !sk.contains s)).map .tag)

/-- `DeepVars.set_all_handlers(value)`: forward to `set_handlers` with every
currently-registered key. -/
def setAllHandlers (st : DVState) (value : Handler) : Except PyErr DVState :=
  setHandlers st value (st.handlers.map Prod.fst)

/-- The module-initialisation state: the built-in registry, plus the very
first bookmark taken by `DEFAULT_BOOKMARK = DeepVars.bookmark_handlers()`. -/
def dvInit (genName : String) : DVState :=
  (bookmarkHandlers { handlers := defaultRegistry, bookmarks := [] } none
    genName).1

/-- A registry mutation performed through the public registration calls
between a bookmark and its restore. -/
inductive Mutation where
  | set : Handler → List HKey → Mutation
  | setSpecial : Handler → Option (List String) → Mutation
  | setAll : Handler → Mutation

/-- Run one registration call against the state; a call that raises (e.g.
`set_handlers` with no keys) leaves the state unchanged, as the source raises
before mutating. -/
def applyMutation (st : DVState) (m : Mutation) : DVState :=
  match m with
  | .set v ks =>
    match setHandlers st v ks with
    | .ok st' => st'
    | .error _ => st
  | .setSpecial v sk =>
    match setSpecialHandlers st v sk with
    | .ok st' => st'
    | .error _ => st
  | .setAll v =>
    match setAllHandlers st v with
    | .ok st' => st'
    | .error _ => st

/-- The registry used by the C3 witness: the plain base handler registered for
integers, as in the repository's `test_base_handler`. -/
def baseIntConfig : Config :=
  { registry := [(.ty .int, .base)], detectors := [] }

/-- C1: for every object and every `max_depth <= 0`, `deep_vars` returns the
object itself, unchanged, whatever the dispatch configuration, field name and
top-level flag. -/
theorem deepVars_nonpositive_identity (cfg : Config) (obj : PyVal)
    (maxDepth : Int) (objName : Option String) (topLevel : Bool)
    (h : maxDepth ≤ 0) :
    deepVars cfg obj maxDepth objName topLevel = .ok obj := by
  unfold deepVars dvFuel
  simp [h]

/-- Witness for C1 at the concrete input `deep_vars(5, 0)`. -/
theorem deepVars_nonpositive_identity_witness :
    deepVars defaultConfig (.int 5) 0 none true = .ok (.int 5) :=
  deepVars_nonpositive_identity defaultConfig (.int 5) 0 none true (by decide)

/-- C2: the classifier returns the first non-`None` detector result in
registration order; with no detector result it applies, in priority order,
the "magic" rule (string name, length above four, double-underscore
delimited), the "private" rule (string name, length above one, leading
underscore), the "callable" rule (callable object that is not a type), and
otherwise yields no classification. -/
theorem getSpecialType_priority (ds : List Detector) (name : Option String)
    (obj : PyVal) :
    (∀ t, ds.findSome? (fun d => d name obj) = some t →
        getSpecialType ds name obj = some t)
    ∧ (ds.findSome? (fun d => d name obj) = none →
        ((∃ s, name = some s ∧ 4 < s.length ∧ strStartsWith s "__" = true ∧
            strEndsWith s "__" = true) →
          getSpecialType ds name obj = some "magic")
        ∧ (isMagicName name = false →
            (∃ s, name = some s ∧ 1 < s.length ∧ strStartsWith s "_" = true) →
          getSpecialType ds name obj = some "private")
        ∧ (isMagicName name = false → isPrivateName name = false →
            pyCallable obj = true → pyIsType obj = false →
          getSpecialType ds name obj = some "callable")
        ∧ (isMagicName name = false → isPrivateName name = false →
            ¬(pyCallable obj = true ∧ pyIsType obj = false) →
          getSpecialType ds name obj = none)) := by
  refine ⟨fun t h => by simp [getSpecialType, h], fun h0 => ⟨?_, ?_, ?_, ?_⟩⟩
  · rintro ⟨s, rfl, h1, h2, h3⟩
    have hm : isMagicName (some s) = true := by simp [isMagicName, h1, h2, h3]
    simp [getSpecialType, h0, hm]
  · rintro hm ⟨s, rfl, h1, h2⟩
    have hp : isPrivateName (some s) = true := by simp [isPrivateName, h1, h2]
    simp [getSpecialType, h0, hm, hp]
  · intro hm hp hc ht
    simp [getSpecialType, h0, hm, hp, hc, ht]
  · intro hm hp hct
    have hc : (pyCallable obj && !pyIsType obj) = false := by
      cases hcb : pyCallable obj <;> cases htb : pyIsType obj <;> simp_all
    simp [getSpecialType, h0, hm, hp, hc]

/-- Witness for C2: one concrete input per fallback rule and one detector
hit. -/
theorem getSpecialType_priority_witness :
    getSpecialType [fun _ _ => some "tagged"] (some "__init__") (.int 0) =
      some "tagged"
    ∧ getSpecialType [] (some "__init__") (.int 0) = some "magic"
    ∧ getSpecialType [] (some "_x") (.int 0) = some "private"
    ∧ getSpecialType [] none (.func "f" (some "(x)")) = some "callable"
    ∧ getSpecialType [] none (.int 0) = none := by
  refine ⟨?_, ?_, ?_, ?_, ?_⟩
  · exact (getSpecialType_priority [fun _ _ => some "tagged"]
      (some "__init__") (.int 0)).1 "tagged" rfl
  · exact ((getSpecialType_priority [] (some "__init__") (.int 0)).2
      rfl).1 ⟨"__init__", rfl, by decide, by decide, by decide⟩
  · exact (((getSpecialType_priority [] (some "_x") (.int 0)).2
      rfl).2.1) (by decide) ⟨"_x", rfl, by decide, by decide⟩
  · exact (((getSpecialType_priority [] none (.func "f" (some "(x)"))).2
      rfl).2.2.1) (by decide) (by decide) (by decide) (by decide)
  · exact (((getSpecialType_priority [] none (.int 0)).2
      rfl).2.2.2) (by decide) (by decide) (by decide)

theorem processWrap_error_shape (pObj : PyVal → DVArgs → Except PyErr PyVal)
    (obj : PyVal) (args : DVArgs) (e : PyErr)
    (h : processWrap pObj obj args = .error e) :
    ∃ m, e = .invalidHandlerError m := by
  unfold processWrap at h
  split at h <;> simp_all
  exact ⟨_, h.symm⟩

theorem dvFuel_error_shape (cfg : Config) (fuel : Nat) (obj : PyVal)
    (d : Int) (nm : Option String) (top : Bool) (e : PyErr)
    (h : dvFuel cfg fuel obj d nm top = .error e) :
    ∃ m, e = if top then PyErr.notImplementedError m
             else PyErr.invalidHandlerError m := by
  unfold dvFuel at h
  by_cases hd : d ≤ 0
  · simp [hd] at h
  · rw [if_neg hd] at h
    match fuel with
    | 0 => simp at h
    | fuel' + 1 =>
      simp only at h
      rcases hr : processWrap
          (processObj (fun v nm => dvFuel cfg fuel' v (d - 1) nm false) cfg
            (getHandler cfg nm obj)) obj
          { maxDepth := d - 1, topLevel := false } with e' | v
      · rw [hr] at h
        obtain ⟨m, rfl⟩ := processWrap_error_shape _ _ _ _ hr
        unfold convertTop at h
        cases top <;> simp_all
        · exact ⟨m, h.symm⟩
        · exact ⟨m, h.symm⟩
      · rw [hr] at h
        simp [convertTop] at h

/-- C3: the base `process` wrapper propagates the "handler not implemented"
signal and swallows every other exception by returning the object unchanged;
`deep_vars` surfaces that signal as a `NotImplementedError` exactly at the
top level (any error escaping a top-level call is a `NotImplementedError`)
and re-raises it unchanged at nested levels (any error escaping a nested call
is still the invalid-handler signal). -/
theorem process_error_contract (pObj : PyVal → DVArgs → Except PyErr PyVal)
    (obj : PyVal) (args : DVArgs) (cfg : Config) (d : Int)
    (nm : Option String) :
    (∀ m, pObj obj args = .error (.invalidHandlerError m) →
        processWrap pObj obj args = .error (.invalidHandlerError m))
    ∧ (∀ e, pObj obj args = .error e → (∀ m, e ≠ .invalidHandlerError m) →
        processWrap pObj obj args = .ok obj)
    ∧ (∀ e, deepVars cfg obj d nm true = .error e →
        ∃ m, e = .notImplementedError m)
    ∧ (∀ e, deepVars cfg obj d nm false = .error e →
        ∃ m, e = .invalidHandlerError m) := by
  refine ⟨?_, ?_, ?_, ?_⟩
  · intro m h
    unfold processWrap
    rw [h]
  · intro e h hne
    unfold processWrap
    rw [h]
    match e, hne with
    | .invalidHandlerError m, hne => exact absurd rfl (hne m)
    | .notImplementedError _, _ => rfl
    | .typeError, _ => rfl
    | .attributeError, _ => rfl
    | .keyError, _ => rfl
    | .valueError _, _ => rfl
    | .stopIteration, _ => rfl
  · intro e h
    have := dvFuel_error_shape cfg d.toNat obj d nm true e h
    simpa using this
  · intro e h
    have := dvFuel_error_shape cfg d.toNat obj d nm false e h
    simpa using this

/-- Witness for C3: a handler raising the invalid-handler signal propagates
through the wrapper; with the base handler registered for `int`, a top-level
`deep_vars(5, 1)` surfaces a `NotImplementedError` and a nested call re-raises
the signal unchanged. -/
theorem process_error_contract_witness :
    processWrap (fun _ _ => .error (.invalidHandlerError "sig")) (.int 0)
      { maxDepth := 0, topLevel := false } = .error (.invalidHandlerError "sig")
    ∧ (∃ m, (PyErr.notImplementedError "do not use DeepVarsHandler directly") =
        .notImplementedError m)
    ∧ (∃ m, (PyErr.invalidHandlerError "do not use DeepVarsHandler directly") =
        .invalidHandlerError m) := by
  refine ⟨?_, ?_, ?_⟩
  · exact (process_error_contract (fun _ _ => .error (.invalidHandlerError "sig"))
      (.int 0) { maxDepth := 0, topLevel := false } baseIntConfig 1 none).1
      "sig" rfl
  · exact (process_error_contract (fun _ _ => .error (.invalidHandlerError "sig"))
      (.int 5) { maxDepth := 0, topLevel := false } baseIntConfig 1 none).2.2.1
      _ rfl
  · exact (process_error_contract (fun _ _ => .error (.invalidHandlerError "sig"))
      (.int 5) { maxDepth := 0, topLevel := false } baseIntConfig 1 none).2.2.2
      _ rfl

/-- The nested object of the spec's worked example: an object with attribute
`a = 19`. -/
def exampleNested : PyVal := .obj [("a", .int 19)]

/-- The outer object of the spec's worked example: attributes `a = 17`,
`b = "foo"`, and `c` bound to the nested object. -/
def exampleOuter : PyVal :=
  .obj [("a", .int 17), ("b", .str "foo"), ("c", exampleNested)]

/-- Counterexample for C4: contrary to the claim, `deep_vars(obj, 2)` does
not return the mapping with `c` left as the nested object — at depth 2 the
engine has already expanded `c` into a mapping (the depth budget reaching the
attribute values is `max_depth - 1`, so expansion of direct object-valued
attributes starts one level earlier than the claim states). -/
theorem deepVars_example_depth2_counterexample :
    deepVars defaultConfig exampleOuter 2 none true ≠
      .ok (.dict [("a", .int 17), ("b", .str "foo"), ("c", exampleNested)]) := by
  intro h
  rw [show deepVars defaultConfig exampleOuter 2 none true =
      .ok (.dict [("a", .int 17), ("b", .str "foo"),
                  ("c", .dict [("a", .int 19)])]) from rfl] at h
  simp [exampleNested] at h

/-- C4 as amended: for the example object, `deep_vars(obj, 1)` returns
`{"a": 17, "b": "foo", "c": <the nested object unchanged>}`, and already
`deep_vars(obj, 2)` expands `c` into the mapping `{"a": 19}`;
`deep_vars(obj, 3)` returns the same fully-expanded result. -/
theorem deepVars_example_depths :
    deepVars defaultConfig exampleOuter 1 none true =
      .ok (.dict [("a", .int 17), ("b", .str "foo"), ("c", exampleNested)])
    ∧ deepVars defaultConfig exampleOuter 2 none true =
      .ok (.dict [("a", .int 17), ("b", .str "foo"),
                  ("c", .dict [("a", .int 19)])])
    ∧ deepVars defaultConfig exampleOuter 3 none true =
      .ok (.dict [("a", .int 17), ("b", .str "foo"),
                  ("c", .dict [("a", .int 19)])]) :=
  ⟨rfl, rfl, rfl⟩

/-- Counterexample for C5: the dict pair `"_x" -> 1` classifies to the hide
(suppress) handler, yet `deep_vars({"_x": 1}, 1)` keeps the pair — the
LoopDict handler does not exclude it, contrary to the claim. -/
theorem container_filtering_counterexample :
    getHandler defaultConfig (some "_x") (.int 1) = .hide
    ∧ handlerUseObj .hide (.int 1)
        { maxDepth := 0, topLevel := false } = false
    ∧ deepVars defaultConfig (.dict [("_x", .int 1)]) 1 none true =
        .ok (.dict [("_x", .int 1)])
    ∧ deepVars defaultConfig (.dict [("_x", .int 1)]) 1 none true ≠
        .ok (.dict []) := by
  refine ⟨rfl, rfl, rfl, ?_⟩
  intro h
  rw [show deepVars defaultConfig (.dict [("_x", .int 1)]) 1 none true =
      .ok (.dict [("_x", .int 1)]) from rfl] at h
  simp at h

/-- C5 as amended: the Loop and LoopDict handlers do consult the usage
predicate `use_subobj` per element / pair, but because `allow_filtering` is
`False` for both (only the Process handler overrides it to `True`), the
predicate accepts every element and every pair unconditionally — in
particular, elements or pairs whose classified handler is the suppress (Hide)
handler are still included in the rebuilt container. -/
theorem container_use_subobj_always_true (cfg : Config)
    (name : Option String) (value : PyVal) (args : DVArgs) :
    useSubobj cfg .loop name value args = true
    ∧ useSubobj cfg .loopDict name value args = true
    ∧ allowFiltering .loop = false
    ∧ allowFiltering .loopDict = false
    ∧ allowFiltering .process = true :=
  ⟨rfl, rfl, rfl, rfl, rfl⟩

/-- C6: `reset_handlers` deletion policy — with exactly one bookmark no
deletion ever happens whatever the arguments; with two or more bookmarks and
`delete` unspecified, the used bookmark is deleted precisely when `name` is
omitted (the most-recently-added bookmark is popped) and kept when `name` is
given; and an explicit `name` absent from the store raises `KeyError`. -/
theorem resetHandlers_deletion_policy (st : DVState) (name : Option String)
    (delete : Option Bool) :
    (st.bookmarks.length = 1 →
      ∀ st', resetHandlers st name delete = .ok st' →
        st'.bookmarks = st.bookmarks)
    ∧ (2 ≤ st.bookmarks.length →
        ∃ st', resetHandlers st none none = .ok st'
          ∧ st'.bookmarks = st.bookmarks.dropLast)
    ∧ (2 ≤ st.bookmarks.length →
        ∀ n st', resetHandlers st (some n) none = .ok st' →
          st'.bookmarks = st.bookmarks)
    ∧ (∀ n, name = some n → dictGet st.bookmarks n = none →
        resetHandlers st name delete = .error .keyError) := by
  refine ⟨?_, ?_, ?_, ?_⟩
  · intro hlen st' h
    have h1 : st.bookmarks.length ≤ 1 := by omega
    simp only [resetHandlers] at h
    rw [if_pos h1] at h
    rcases name with _ | n
    · simp only [if_neg (by simp : ¬ false = true)] at h
      split at h
      · exact absurd h (by simp)
      · injection h with h
        rw [← h]
    · simp only [if_neg (by simp : ¬ false = true)] at h
      split at h
      · exact absurd h (by simp)
      · injection h with h
        rw [← h]
  · intro hlen
    have h1 : ¬ st.bookmarks.length ≤ 1 := by omega
    have hne : st.bookmarks ≠ [] := by
      intro he
      rw [he] at hlen
      simp at hlen
    obtain ⟨⟨k, bm⟩, hp⟩ : ∃ p, st.bookmarks.getLast? = some p := by
      rcases hq : st.bookmarks.getLast? with _ | p
      · exact absurd (List.getLast?_eq_none_iff.mp hq) hne
      · exact ⟨p, rfl⟩
    refine ⟨⟨bm, st.bookmarks.dropLast⟩, ?_, rfl⟩
    simp only [resetHandlers]
    rw [if_neg h1]
    simp [hp]
  · intro hlen n st' h
    have h1 : ¬ st.bookmarks.length ≤ 1 := by omega
    simp only [resetHandlers] at h
    rw [if_neg h1] at h
    simp only [Option.isNone_some, if_neg (by simp : ¬ false = true)] at h
    split at h
    · exact absurd h (by simp)
    · injection h with h
      rw [← h]
  · rintro n rfl hget
    simp only [resetHandlers]
    rcases delete with _ | b
    · by_cases h1 : st.bookmarks.length ≤ 1 <;> simp [h1, hget]
    · by_cases h1 : st.bookmarks.length ≤ 1 <;> cases b <;> simp [h1, hget]

/-- Witness for C6 on concrete stores: a one-bookmark store is left intact by
a deleting reset, and an unknown explicit name raises `KeyError`. -/
theorem resetHandlers_deletion_policy_witness :
    (DVState.bookmarks ⟨defaultRegistry, [("d", defaultRegistry)]⟩ =
      [("d", defaultRegistry)])
    ∧ resetHandlers
        { handlers := defaultRegistry,
          bookmarks := [("d", defaultRegistry)] } (some "missing") none =
        .error .keyError := by
  constructor
  · exact (resetHandlers_deletion_policy
      { handlers := defaultRegistry, bookmarks := [("d", defaultRegistry)] }
      none (some true)).1 (by decide)
      ⟨defaultRegistry, [("d", defaultRegistry)]⟩ rfl
  · exact (resetHandlers_deletion_policy
      { handlers := defaultRegistry, bookmarks := [("d", defaultRegistry)] }
      (some "missing") none).2.2.2 "missing" rfl (by decide)

theorem setHandlers_bookmarks (st : DVState) (v : Handler) (ks : List HKey)
    (st' : DVState) (h : setHandlers st v ks = .ok st') :
    st'.bookmarks = st.bookmarks := by
  unfold setHandlers at h
  split at h
  · exact absurd h (by simp)
  · injection h with h
    rw [← h]

theorem applyMutation_bookmarks (st : DVState) (m : Mutation) :
    (applyMutation st m).bookmarks = st.bookmarks := by
  rcases m with ⟨v, ks⟩ | ⟨v, sk⟩ | v
  · rcases hr : setHandlers st v ks with e | st2
    · simp [applyMutation, hr]
    · simp only [applyMutation, hr]
      exact setHandlers_bookmarks _ _ _ _ hr
  · rcases hr : setSpecialHandlers st v sk with e | st2
    · simp [applyMutation, hr]
    · simp only [applyMutation, hr]
      exact setHandlers_bookmarks _ _ _ _ hr
  · rcases hr : setAllHandlers st v with e | st2
    · simp [applyMutation, hr]
    · simp only [applyMutation, hr]
      exact setHandlers_bookmarks _ _ _ _ hr

theorem foldl_applyMutation_bookmarks (muts : List Mutation) (st : DVState) :
    (muts.foldl applyMutation st).bookmarks = st.bookmarks := by
  induction muts generalizing st with
  | nil => rfl
  | cons m rest ih =>
    rw [List.foldl_cons, ih, applyMutation_bookmarks]

theorem dictGet_dictRemove_self {α β : Type} [DecidableEq α]
    (l : List (α × β)) (k : α) : dictGet (dictRemove l k) k = none := by
  induction l with
  | nil => rfl
  | cons p rest ih =>
    rcases p with ⟨k1, v1⟩
    by_cases hk : k1 = k
    · simp only [dictRemove, if_pos hk]
      exact ih
    · simp only [dictRemove, if_neg hk, dictGet]
      exact ih

theorem dictGet_append_last {α β : Type} [DecidableEq α] (l : List (α × β))
    (k : α) (v : β) (h : dictGet l k = none) :
    dictGet (l ++ [(k, v)]) k = some v := by
  induction l with
  | nil => simp [dictGet]
  | cons p rest ih =>
    rcases p with ⟨k1, v1⟩
    simp only [dictGet] at h
    by_cases hk : k1 = k
    · rw [if_pos hk] at h
      exact absurd h (by simp)
    · rw [if_neg hk] at h
      simp only [List.cons_append, dictGet, if_neg hk]
      exact ih h

/-- C7: round-trip — after `bookmark_handlers(name)` captures a snapshot and
the live registry is arbitrarily mutated through `set_handlers` /
`set_special_handlers` / `set_all_handlers`, `reset_handlers(name)` succeeds
and leaves the live registry equal (indeed, equal as a key-to-value mapping)
to the registry at the moment the snapshot was taken. -/
theorem bookmark_reset_roundtrip (st : DVState) (name gen : String)
    (muts : List Mutation) :
    ∃ st', resetHandlers
        (muts.foldl applyMutation (bookmarkHandlers st (some name) gen).1)
        (some name) none = .ok st'
      ∧ st'.handlers = st.handlers
      ∧ ∀ k, dictGet st'.handlers k = dictGet st.handlers k := by
  have hget : dictGet (muts.foldl applyMutation
      (bookmarkHandlers st (some name) gen).1).bookmarks name =
      some st.handlers := by
    rw [foldl_applyMutation_bookmarks]
    exact dictGet_append_last _ _ _ (dictGet_dictRemove_self _ _)
  refine ⟨⟨st.handlers,
    (muts.foldl applyMutation
      (bookmarkHandlers st (some name) gen).1).bookmarks⟩,
    ?_, rfl, fun k => rfl⟩
  simp only [resetHandlers, Option.isNone_some, ite_self, Bool.false_eq_true,
    if_false, hget]

theorem dictRemove_of_not_mem {α β : Type} [DecidableEq α]
    (l : List (α × β)) (k : α) (h : k ∉ l.map Prod.fst) :
    dictRemove l k = l := by
  induction l with
  | nil => rfl
  | cons p rest ih =>
    rcases p with ⟨k1, v1⟩
    simp only [List.map_cons, List.mem_cons] at h
    push_neg at h
    have hne : ¬ (k1 = k) := fun he => h.1 he.symm
    simp only [dictRemove, if_neg hne, ih h.2]

theorem length_le_dictRemove_succ {α β : Type} [DecidableEq α]
    (l : List (α × β)) (k : α) (h : (l.map Prod.fst).Nodup) :
    l.length ≤ (dictRemove l k).length + 1 := by
  induction l with
  | nil => simp
  | cons p rest ih =>
    rcases p with ⟨k1, v1⟩
    simp only [List.map_cons, List.nodup_cons] at h
    by_cases hk : k1 = k
    · subst hk
      simp only [dictRemove, if_pos rfl]
      rw [dictRemove_of_not_mem rest k1 h.1]
      simp
    · simp only [dictRemove, if_neg hk, List.length_cons]
      have := ih h.2
      omega

theorem head?_dropLast_of_two_le {α : Type} (l : List α)
    (h : 2 ≤ l.length) : l.dropLast.head? = l.head? := by
  match l, h with
  | a :: b :: t, _ => simp [List.dropLast]

theorem resetHandlers_ok_shape (st : DVState) (name : Option String)
    (dl : Option Bool) (st' : DVState)
    (h : resetHandlers st name dl = .ok st') :
    st'.bookmarks = st.bookmarks
    ∨ (¬ st.bookmarks.length ≤ 1 ∧
        ((name = none ∧ st'.bookmarks = st.bookmarks.dropLast)
         ∨ ∃ n, name = some n ∧ st'.bookmarks = dictRemove st.bookmarks n)) := by
  simp only [resetHandlers] at h
  by_cases h1 : st.bookmarks.length ≤ 1
  · rw [if_pos h1] at h
    left
    rcases name with _ | n <;>
      simp only [Bool.false_eq_true, if_false] at h <;>
      (split at h
       · exact absurd h (by simp)
       · injection h with h
         rw [← h])
  · rw [if_neg h1] at h
    rcases name with _ | n <;> rcases dl with _ | b
    · simp only [Option.isNone_none, if_true] at h
      split at h
      · exact absurd h (by simp)
      · injection h with h
        exact .inr ⟨h1, .inl ⟨rfl, by rw [← h]⟩⟩
    · cases b
      · simp only [Bool.false_eq_true, if_false] at h
        split at h
        · exact absurd h (by simp)
        · injection h with h
          exact .inl (by rw [← h])
      · simp only [if_true] at h
        split at h
        · exact absurd h (by simp)
        · injection h with h
          exact .inr ⟨h1, .inl ⟨rfl, by rw [← h]⟩⟩
    · simp only [Option.isNone_some, Bool.false_eq_true, if_false] at h
      split at h
      · exact absurd h (by simp)
      · injection h with h
        exact .inl (by rw [← h])
    · cases b
      · simp only [Bool.false_eq_true, if_false] at h
        split at h
        · exact absurd h (by simp)
        · injection h with h
          exact .inl (by rw [← h])
      · simp only [if_true] at h
        split at h
        · exact absurd h (by simp)
        · injection h with h
          exact .inr ⟨h1, .inr ⟨n, rfl, by rw [← h]⟩⟩

/-- C8: the bookmark store is never empty — it holds a bookmark right after
module initialisation, `bookmark_handlers` and `clear_bookmarks` always leave
it non-empty, `reset_handlers` leaves it non-empty whenever it succeeds on a
well-formed (duplicate-free) non-empty store, and the oldest (first) bookmark
survives every `reset_handlers` call that omits the name (the only automatic
deletion path, which pops the most-recently-added entry). -/
theorem bookmark_store_invariants :
    ((dvInit "d").bookmarks ≠ [])
    ∧ (∀ st name gen, (bookmarkHandlers st name gen).1.bookmarks ≠ [])
    ∧ (∀ st name dl st', (st.bookmarks.map Prod.fst).Nodup →
        st.bookmarks ≠ [] → resetHandlers st name dl = .ok st' →
        st'.bookmarks ≠ [])
    ∧ (∀ st st', clearBookmarks st = .ok st' → st'.bookmarks ≠ [])
    ∧ (∀ st dl st', resetHandlers st none dl = .ok st' →
        st'.bookmarks.head? = st.bookmarks.head?) := by
  refine ⟨by simp [dvInit, bookmarkHandlers, dictSet], ?_, ?_, ?_, ?_⟩
  · intro st name gen
    rcases name with _ | n
    · simp only [bookmarkHandlers]
      cases st.bookmarks with
      | nil => simp [dictSet]
      | cons p t =>
        simp only [dictSet]
        split <;> simp
    · simp [bookmarkHandlers]
  · intro st name dl st' hnodup hne h
    rcases resetHandlers_ok_shape st name dl st' h with hsame | ⟨h1, hdel⟩
    · rw [hsame]
      exact hne
    · rcases hdel with ⟨_, hdl⟩ | ⟨n, _, hdr⟩
      · rw [hdl]
        have : st.bookmarks.dropLast.length = st.bookmarks.length - 1 :=
          List.length_dropLast _
        intro he
        rw [he] at this
        simp at this
        omega
      · rw [hdr]
        have hlen := length_le_dictRemove_succ st.bookmarks n hnodup
        intro he
        rw [he] at hlen
        simp at hlen
        omega
  · intro st st' h
    unfold clearBookmarks at h
    split at h
    · exact absurd h (by simp)
    · injection h with h
      rw [← h]
      simp
  · intro st dl st' h
    rcases resetHandlers_ok_shape st none dl st' h with hsame | ⟨h1, hdel⟩
    · rw [hsame]
    · rcases hdel with ⟨_, hdl⟩ | ⟨n, hn, _⟩
      · rw [hdl]
        exact head?_dropLast_of_two_le _ (by omega)
      · exact absurd hn (by simp)

/-- Witness for C8 on concrete stores: a duplicate-free two-bookmark store
stays non-empty through a deleting nameless reset (which pops the newest
entry), and the oldest bookmark survives it. -/
theorem bookmark_store_invariants_witness :
    ([(("d" : String), defaultRegistry)] ≠ [])
    ∧ (([(("d" : String), defaultRegistry)] : List (String × Registry)).head?
        = [(("d" : String), defaultRegistry), ("e", [])].head?) := by
  constructor
  · exact bookmark_store_invariants.2.2.1
      ⟨defaultRegistry, [("d", defaultRegistry), ("e", [])]⟩ none (some true)
      ⟨[], [("d", defaultRegistry)]⟩ (by decide) (by decide) rfl
  · exact bookmark_store_invariants.2.2.2.2
      ⟨defaultRegistry, [("d", defaultRegistry), ("e", [])]⟩ (some true)
      ⟨[], [("d", defaultRegistry)]⟩ rfl

/-- C9: on a non-empty store, `clear_bookmarks` leaves exactly one bookmark —
the oldest entry by insertion order, name and snapshot intact — and leaves
the live handler registry unchanged. -/
theorem clearBookmarks_spec (st : DVState) (h : st.bookmarks ≠ []) :
    clearBookmarks st =
      .ok { handlers := st.handlers, bookmarks := st.bookmarks.take 1 } := by
  rcases hb : st.bookmarks with _ | ⟨⟨n, bm⟩, rest⟩
  · exact absurd hb h
  · simp [clearBookmarks, hb]

/-- Witness for C9 on a concrete two-bookmark store. -/
theorem clearBookmarks_spec_witness :
    clearBookmarks ⟨defaultRegistry, [("d", defaultRegistry), ("e", [])]⟩ =
      .ok ⟨defaultRegistry,
           [(("d" : String), defaultRegistry), ("e", [])].take 1⟩ :=
  clearBookmarks_spec
    ⟨defaultRegistry, [("d", defaultRegistry), ("e", [])]⟩ (by decide)

/-- C10: when every currently-registered string classifier key is in `skip`
(in particular when the registry holds no string keys at all),
`set_special_handlers` forwards an empty key list to `set_handlers` and so
raises `ValueError` instead of being a no-op. -/
theorem setSpecialHandlers_all_skipped (st : DVState) (value : Handler)
    (skip : Option (List String))
    (h : (stringKeys st.handlers).all
      (fun s => (skip.getD []).contains s) = true) :
    setSpecialHandlers st value skip =
      .error (.valueError "at least one handler needs to be provided") := by
  have hnil : ((stringKeys st.handlers).filter
      (fun s => !(skip.getD []).contains s)) = [] := by
    rw [List.filter_eq_nil_iff]
    intro a ha
    have := List.all_eq_true.mp h a ha
    simpa using this
  simp only [setSpecialHandlers, hnil, List.map_nil, setHandlers, if_pos rfl,
    if_true]

/-- Witness for C10: skipping all three built-in string keys, and the
string-keyless registry case. -/
theorem setSpecialHandlers_all_skipped_witness :
    setSpecialHandlers ⟨defaultRegistry, []⟩ .show
        (some ["magic", "private", "callable"]) =
      .error (.valueError "at least one handler needs to be provided")
    ∧ setSpecialHandlers ⟨[(.ty .int, .show)], []⟩ .hide none =
      .error (.valueError "at least one handler needs to be provided") :=
  ⟨setSpecialHandlers_all_skipped _ _ _ (by decide),
   setSpecialHandlers_all_skipped _ _ _ (by decide)⟩
